import Mathlib

/-!
Verification of the simplified TCP-over-UDP engine in fase3/tcp_socket.py.
The Python class TCPSocket is shallowly embedded: byte strings are lists of
naturals below 256, wall-clock times and RTT statistics are rationals, and
each method is a pure Lean function (or a step relation for the concurrent
sender) translated clause by clause from the source.
-/

namespace TCP

/-! ## Segment codec (TCPSocket._pack_segment / TCPSocket._unpack_segment) -/

/-- Big-endian serialization of one 16-bit field, as produced by a
single H slot of struct.pack with network byte order (in-range input). -/
def packU16 (n : ℕ) : List ℕ := [n / 256 % 256, n % 256]

/-- Big-endian serialization of one 32-bit field, an I slot of struct.pack
with network byte order (in-range input). -/
def packU32 (n : ℕ) : List ℕ :=
  [n / 16777216 % 256, n / 65536 % 256, n / 256 % 256, n % 256]

/-- Reassembles a 16-bit big-endian field from its two bytes, as
struct.unpack does. -/
def readU16 (a b : ℕ) : ℕ := a * 256 + b

/-- Reassembles a 32-bit big-endian field from its four bytes, as
struct.unpack does. -/
def readU32 (a b c d : ℕ) : ℕ := ((a * 256 + b) * 256 + c) * 256 + d

/-- Whether the first character list is an initial run of the second. -/
def matchesAt : List Char → List Char → Bool
  | [], _ => true
  | _ :: _, [] => false
  | p :: ps, c :: cs => (p == c) && matchesAt ps cs

/-- Whether the character list pat occurs contiguously inside the character
list s, scanning left to right: the semantics of the Python expression
pat in s on strings. -/
def hasSub : List Char → List Char → Bool
  | [], _ => true
  | _ :: _, [] => false
  | p :: ps, c :: cs => (matchesAt (p :: ps) (c :: cs)) || hasSub (p :: ps) cs

/-- The Python substring test pat in s on the flag strings. -/
def strHas (s pat : String) : Bool := hasSub pat.toList s.toList

/-- Flag bits accumulated by _pack_segment from the flags string, in source
order: FIN sets 0x01, SYN sets 0x02, ACK sets 0x10, SYN-ACK sets 0x12,
PSH sets 0x08; each test is a substring containment as in Python. -/
def flagBits (flags : String) : ℕ :=
  let b1 := if strHas flags "FIN" then 0 ||| 0x01 else 0
  let b2 := if strHas flags "SYN" then b1 ||| 0x02 else b1
  let b3 := if strHas flags "ACK" then b2 ||| 0x10 else b2
  let b4 := if strHas flags "SYN-ACK" then b3 ||| 0x12 else b3
  if strHas flags "PSH" then b4 ||| 0x08 else b4

/-- TCPSocket._pack_segment: a 20-byte header (source port, destination
port, seq, ack, offset-plus-flags with header length 5, window, two zero
reserved fields) followed by the payload.  The two ports are the socket
state the Python method reads from self. -/
def pack_segment (srcPort dstPort : ℕ) (flags : String) (seq ack window : ℕ)
    (data : List ℕ) : List ℕ :=
  packU16 srcPort ++ packU16 dstPort ++ packU32 seq ++ packU32 ack ++
    packU16 ((5 <<< 12) ||| flagBits flags) ++ packU16 window ++
    packU16 0 ++ packU16 0 ++ data

/-- Flag-label decoding of _unpack_segment: an if/elif chain giving the
priority order SYN-ACK, SYN, ACK, FIN, PSH (Python truthiness: a nonzero
masked value is true). -/
def decodeFlags (offsetFlags : ℕ) : String :=
  if offsetFlags &&& 0x12 = 0x12 then "SYN-ACK"
  else if offsetFlags &&& 0x02 ≠ 0 then "SYN"
  else if offsetFlags &&& 0x10 ≠ 0 then "ACK"
  else if offsetFlags &&& 0x01 ≠ 0 then "FIN"
  else if offsetFlags &&& 0x08 ≠ 0 then "PSH"
  else ""

/-- The dictionary _unpack_segment returns. -/
structure SegmentHeader where
  srcPort : ℕ
  dstPort : ℕ
  seq : ℕ
  ack : ℕ
  flags : String
  window : ℕ
  data : List ℕ
deriving Repr, DecidableEq

/-- TCPSocket._unpack_segment: struct.unpack of the first 20 bytes (raising
struct.error, the MalformedSegment of the spec, when fewer than 20 bytes are
present) and the remainder as payload. -/
def unpack_segment (segment : List ℕ) : Except String SegmentHeader :=
  if segment.length < 20 then Except.error "MalformedSegment"
  else
    Except.ok
      { srcPort := readU16 (segment.getD 0 0) (segment.getD 1 0)
        dstPort := readU16 (segment.getD 2 0) (segment.getD 3 0)
        seq := readU32 (segment.getD 4 0) (segment.getD 5 0)
          (segment.getD 6 0) (segment.getD 7 0)
        ack := readU32 (segment.getD 8 0) (segment.getD 9 0)
          (segment.getD 10 0) (segment.getD 11 0)
        flags := decodeFlags (readU16 (segment.getD 12 0) (segment.getD 13 0))
        window := readU16 (segment.getD 14 0) (segment.getD 15 0)
        data := segment.drop 20 }

/-! ## Connection state (TCPSocket.__init__) -/

/-- One entry of the send_buffer dictionary: seq_base mapped to the packed
segment, the send timestamp and the raw chunk. -/
structure SendEntry where
  seqBase : ℕ
  segment : List ℕ
  time : ℚ
  data : List ℕ
deriving Repr, DecidableEq

/-- The mutable state of one TCPSocket instance.  The local port is the
bound UDP port, the remote port stands for remote_addr; the Booleans mirror
the lifecycle flags and the private timer flag; socketClosed records whether
self.udp.close() has run. -/
structure ConnState where
  localPort : ℕ
  remotePort : ℕ
  seq : ℕ
  ack : ℕ
  recvWindow : ℕ
  sendBuffer : List SendEntry
  recvBuffer : List ℕ
  estimatedRTT : ℚ
  devRTT : ℚ
  timeoutInterval : ℚ
  running : Bool
  connected : Bool
  finSent : Bool
  finAcked : Bool
  finReceived : Bool
  timerRunning : Bool
  socketClosed : Bool
deriving Repr, DecidableEq

/-- TCPSocket.__init__ with the random initial sequence number isn made a
parameter: empty buffers, estimated_rtt 0.3, dev_rtt 0.15, timeout 1.0, all
lifecycle flags false. -/
def initState (localPort isn recvWindow : ℕ) : ConnState :=
  { localPort := localPort
    remotePort := 0
    seq := isn
    ack := 0
    recvWindow := recvWindow
    sendBuffer := []
    recvBuffer := []
    estimatedRTT := 3/10
    devRTT := 3/20
    timeoutInterval := 1
    running := false
    connected := false
    finSent := false
    finAcked := false
    finReceived := false
    timerRunning := false
    socketClosed := false }

/-! ## RTT estimator (TCPSocket._update_rtt) -/

/-- The three adaptive-RTT fields of the connection. -/
structure RTTState where
  estimatedRTT : ℚ
  devRTT : ℚ
  timeoutInterval : ℚ
deriving Repr, DecidableEq

/-- The RTT fields as __init__ leaves them. -/
def rttInit : RTTState :=
  { estimatedRTT := 3/10, devRTT := 3/20, timeoutInterval := 1 }

/-- TCPSocket._update_rtt: non-positive samples are ignored; a state whose
estimated_rtt still equals the initial 0.3 is treated as never sampled and
is seeded (estimated := sample, dev := sample/2); otherwise the EWMA update
with alpha = 0.125 and beta = 0.25, the deviation using the already updated
estimate as in the source's sequential assignments; finally the timeout is
estimated + 4*dev clamped to [0.1, 3.0]. -/
def update_rtt (s : RTTState) (sampleRTT : ℚ) : RTTState :=
  if sampleRTT ≤ 0 then s
  else
    let alpha : ℚ := 1/8
    let beta : ℚ := 1/4
    let pair : ℚ × ℚ :=
      if s.estimatedRTT = 3/10 then (sampleRTT, sampleRTT / 2)
      else
        let est := (1 - alpha) * s.estimatedRTT + alpha * sampleRTT
        (est, (1 - beta) * s.devRTT + beta * |sampleRTT - est|)
    { estimatedRTT := pair.1
      devRTT := pair.2
      timeoutInterval := max (1/10) (min (pair.1 + 4 * pair.2) 3) }

/-- n further calls of _update_rtt, all with the same sample c. -/
def rttIterate (s : RTTState) (c : ℚ) : ℕ → RTTState
  | 0 => s
  | n + 1 => update_rtt (rttIterate s c n) c

/-! ## Acknowledgment processing (TCPSocket._handle_ack) -/

/-- End offset of a buffered segment: seq plus payload length, the quantity
the source compares against ack_num. -/
def endOffset (e : SendEntry) : ℕ := e.seqBase + e.data.length

/-- min(self.send_buffer.keys()) if self.send_buffer else None. -/
def oldestSeq (buf : List SendEntry) : Option ℕ :=
  (buf.map SendEntry.seqBase).min?

/-- The buffer-pruning core of TCPSocket._handle_ack at wall-clock time now:
entries whose end offset is at most ack_num are removed (the rest keep their
dictionary order); if the entry at the pre-existing minimal key is removed,
its age now - time is the RTT sample handed to _update_rtt, otherwise no
sample is taken. -/
def handle_ack (buf : List SendEntry) (ackNum : ℕ) (now : ℚ) :
    List SendEntry × Option ℚ :=
  let oldestBefore := oldestSeq buf
  let keep := buf.filter (fun e => decide (ackNum < endOffset e))
  let sample :=
    match buf.find? (fun e =>
        decide (endOffset e ≤ ackNum) && decide (some e.seqBase = oldestBefore)) with
    | some e => some (now - e.time)
    | none => none
  (keep, sample)

/-! ## Receiver loop body (TCPSocket._receive_loop) -/

/-- One pass of the receiver loop over a freshly read datagram at time now.
The result is Except: ok carries the new state and the list of datagrams
sent in reply; error models the uncaught decoding exception of
_unpack_segment, which propagates out of the loop and terminates the
receiver thread.  The ACK branch is _handle_ack (pruning, optional RTT
sample, timer stop on empty buffer, timeout re-clamp and timer restart on a
still non-empty buffer); the PSH branch appends in-order payload and always
replies with an ACK carrying the updated ack and the local recv_window; the
FIN branch records the FIN, acks it and echoes a FIN when none was sent. -/
def receive_step (st : ConnState) (now : ℚ) (datagram : List ℕ) :
    Except String (ConnState × List (List ℕ)) :=
  match unpack_segment datagram with
  | Except.error e => Except.error e
  | Except.ok h =>
    if h.flags = "ACK" then
      let pr := handle_ack st.sendBuffer h.ack now
      let rtt0 : RTTState :=
        { estimatedRTT := st.estimatedRTT, devRTT := st.devRTT
          timeoutInterval := st.timeoutInterval }
      let rtt1 := match pr.2 with
        | some smp => update_rtt rtt0 smp
        | none => rtt0
      let st1 :=
        { st with
          sendBuffer := pr.1
          estimatedRTT := rtt1.estimatedRTT
          devRTT := rtt1.devRTT
          timeoutInterval := rtt1.timeoutInterval
          timerRunning := if pr.1.isEmpty then false else st.timerRunning }
      if pr.1.isEmpty then Except.ok (st1, [])
      else
        Except.ok
          ({ st1 with
             timeoutInterval :=
               max (1/10) (min (st1.estimatedRTT + 4 * st1.devRTT) 3)
             timerRunning := true }, [])
    else if h.flags = "PSH" then
      let st1 :=
        if h.seq = st.ack then
          { st with recvBuffer := st.recvBuffer ++ h.data
                    ack := st.ack + h.data.length }
        else st
      Except.ok (st1,
        [pack_segment st1.localPort st1.remotePort "ACK" st1.seq st1.ack
          st1.recvWindow []])
    else if h.flags = "FIN" then
      let st1 := { st with finReceived := true }
      let ackSeg := pack_segment st1.localPort st1.remotePort "ACK" st1.seq
        (st1.ack + 1) st1.recvWindow []
      if st1.finSent then Except.ok (st1, [ackSeg])
      else
        Except.ok ({ st1 with finSent := true },
          [ackSeg,
           pack_segment st1.localPort st1.remotePort "FIN" st1.seq
             (st1.ack + 1) st1.recvWindow []])
    else Except.ok (st, [])

/-! ## Handshake (TCPSocket.connect / TCPSocket.accept) -/

/-- The tail of TCPSocket.connect once a segment has been received and
decoded: on a SYN-ACK the loop exits with ack := peer seq + 1, the final
ACK(seq = isn + 1, ack) is sent, seq is incremented, the connection is
marked connected and the receiver loop is started (running := true).  Any
other flag keeps the retry loop going, modeled as none. -/
def connect_finish (st : ConnState) (synackHdr : SegmentHeader) :
    Option (ConnState × List (List ℕ)) :=
  if synackHdr.flags = "SYN-ACK" then
    let st1 := { st with ack := synackHdr.seq + 1 }
    let ackSeg := pack_segment st1.localPort st1.remotePort "ACK"
      (st1.seq + 1) st1.ack st1.recvWindow []
    some ({ st1 with seq := st1.seq + 1, connected := true, running := true },
      [ackSeg])
  else none

/-- One pass of the TCPSocket.accept loop, given the decoded first datagram
and the decoded reply to the SYN-ACK: on a SYN, ack := peer seq + 1 and a
SYN-ACK(seq = isn, ack) goes out; if the second segment is an ACK whose ack
field equals isn + 1, seq is incremented, the connection is marked connected
and the receiver loop is started.  Everything else loops again (none). -/
def accept_conn (st : ConnState) (synHdr finalHdr : SegmentHeader) :
    Option (ConnState × List (List ℕ)) :=
  if synHdr.flags = "SYN" then
    let st1 := { st with ack := synHdr.seq + 1 }
    let synack := pack_segment st1.localPort st1.remotePort "SYN-ACK"
      st1.seq st1.ack st1.recvWindow []
    if finalHdr.flags = "ACK" ∧ finalHdr.ack = st1.seq + 1 then
      some ({ st1 with seq := st1.seq + 1, connected := true, running := true },
        [synack])
    else none
  else none

/-! ## Sending (TCPSocket.send) -/

/-- Result of a send call run to quiescence with no concurrent
acknowledgment processing: notConnected is the ConnectionError raised before
anything happens; blocked is the inner wait loop spinning forever because
the window accounting is full and nothing can shrink it; done carries the
final state and every datagram handed to sendto.  fuelOut is unreachable
when the chunk size is positive. -/
inductive SendOutcome where
  | notConnected
  | blocked (st : ConnState) (sent : List (List ℕ))
  | fuelOut (st : ConnState) (sent : List (List ℕ))
  | done (st : ConnState) (sent : List (List ℕ))
deriving Repr, DecidableEq

/-- The while-offset loop of TCPSocket.send at fixed wall-clock time t: if
the remaining data is empty the loop is over; otherwise, when
len(send_buffer) * recv_window has reached recv_window * 8 the wait loop
blocks (no acknowledgments arrive in this sequential run); otherwise the
next chunk of at most recv_window bytes is packed as PSH at seq, sent,
recorded in the buffer, seq advances by the chunk length and the timer is
armed. -/
def sendGo (t : ℚ) : ℕ → ConnState → List ℕ → List (List ℕ) → SendOutcome
  | _, st, [], acc => SendOutcome.done st acc
  | 0, st, _ :: _, acc => SendOutcome.fuelOut st acc
  | fuel + 1, st, b :: rest, acc =>
    if st.sendBuffer.length * st.recvWindow ≥ st.recvWindow * 8 then
      SendOutcome.blocked st acc
    else
      let chunk := (b :: rest).take st.recvWindow
      let seg := pack_segment st.localPort st.remotePort "PSH" st.seq st.ack
        st.recvWindow chunk
      let st1 :=
        { st with
          sendBuffer := st.sendBuffer ++
            [{ seqBase := st.seq, segment := seg, time := t, data := chunk }]
          seq := st.seq + chunk.length
          timerRunning := true }
      sendGo t fuel st1 ((b :: rest).drop st.recvWindow) (acc ++ [seg])

/-- TCPSocket.send: raises ConnectionError (NotConnected) before touching
any state when the socket is not connected, otherwise runs the chunking
loop. -/
def send_data (st : ConnState) (t : ℚ) (data : List ℕ) : SendOutcome :=
  if st.connected = false then SendOutcome.notConnected
  else sendGo t data.length st data []

/-! ## Sender transition system for the flow-control claim.

send runs concurrently with the receiver loop's acknowledgment processing,
so the unacknowledged-bytes bound is stated over an interleaving step
relation: one step is either the body of the send loop admitting one more
chunk (guarded by the source's wait condition), or the arrival of an ACK
segment pruning the buffer through _handle_ack.  The window field of the
arriving segment is recorded as a ghost component, because the claim speaks
of the window most recently advertised by the peer (the source itself never
reads that field). -/

/-- The sender-side projection of the connection, with the ghost field
lastAdvertised: the window field of the last segment received from the peer
(seeded by the handshake segment). -/
structure SenderState where
  seq : ℕ
  sendBuffer : List SendEntry
  lastAdvertised : ℕ
deriving Repr, DecidableEq

/-- Sender state right after the handshake: empty buffer, the peer's
handshake segment advertised w0. -/
def senderInit (isn w0 : ℕ) : SenderState :=
  { seq := isn, sendBuffer := [], lastAdvertised := w0 }

/-- Total unacknowledged payload bytes in flight. -/
def inflight (s : SenderState) : ℕ :=
  (s.sendBuffer.map (fun e => e.data.length)).sum

/-- One interleaved event on a connected socket with local receive window w.
chunk: the send loop passes its wait guard (buffered-chunk accounting below
recv_window * 8) and enqueues data[offset : offset + w], a nonempty list of
at most w bytes, packed as PSH; lp, rp, a are the port and ack fields the
packed segment happens to carry.  ackArrive: the receiver loop runs
_handle_ack on an incoming segment with acknowledgment number ackNum and
advertised window adv. -/
inductive SendStep (w : ℕ) : SenderState → SenderState → Prop where
  | chunk (s : SenderState) (c : List ℕ) (t : ℚ) (lp rp a : ℕ)
      (hne : c ≠ []) (hlen : c.length ≤ w)
      (hwait : s.sendBuffer.length * w < w * 8) :
      SendStep w s
        { seq := s.seq + c.length
          sendBuffer := s.sendBuffer ++
            [{ seqBase := s.seq
               segment := pack_segment lp rp "PSH" s.seq a w c
               time := t
               data := c }]
          lastAdvertised := s.lastAdvertised }
  | ackArrive (s : SenderState) (ackNum adv : ℕ) (now : ℚ) :
      SendStep w s
        { seq := s.seq
          sendBuffer := (handle_ack s.sendBuffer ackNum now).1
          lastAdvertised := adv }

/-- Reflexive-transitive closure of SendStep: the states a connected sender
can reach from init. -/
inductive SendReachable (w : ℕ) (init : SenderState) : SenderState → Prop where
  | refl : SendReachable w init init
  | tail {s s2 : SenderState} : SendReachable w init s → SendStep w s s2 →
      SendReachable w init s2

/-! ## Teardown (TCPSocket.close) -/

/-- First index at or after k, within fuel steps, at which cond holds; k +
fuel when none is found. -/
def findExit (cond : ℕ → Bool) : ℕ → ℕ → ℕ
  | k, 0 => k
  | k, fuel + 1 => if cond k then k else findExit cond (k + 1) fuel

/-- Exit test of the drain loop of close at its k-th check: the loop keeps
spinning while the send buffer is non-empty (the oracle drainPoll, the
receiver thread may empty it concurrently) and less than 15.0 seconds have
elapsed; each iteration sleeps 0.02 s, so at check k at least k * 0.02 s
have passed. -/
def drainExitCond (drainPoll : ℕ → Bool) (k : ℕ) : Bool :=
  !(drainPoll k && decide ((k : ℚ) * (2 / 100) < 15))

/-- Number of iterations of the drain-wait loop of close. -/
def drainIters (drainPoll : ℕ → Bool) : ℕ :=
  findExit (drainExitCond drainPoll) 0 751

/-- Exit test of the FIN-acknowledgment wait of close at its k-th check: the
loop runs while less than 2.0 seconds have elapsed and breaks early when
both fin_received (oracle finR, set by the receiver thread) and fin_acked
(finA, constant during the loop: only close itself sets it, later) hold;
each iteration sleeps 0.05 s. -/
def finWaitExitCond (finR : ℕ → Bool) (finA : Bool) (k : ℕ) : Bool :=
  !(decide ((k : ℚ) * (5 / 100) < 2)) || (finR k && finA)

/-- Number of iterations of the FIN-acknowledgment wait of close. -/
def finWaitIters (finR : ℕ → Bool) (finA : Bool) : ℕ :=
  findExit (finWaitExitCond finR finA) 0 41

/-- What a close call produced: the state left behind, the datagrams sent,
and how many times each of the two waiting loops polled. -/
structure CloseResult where
  final : ConnState
  sent : List (List ℕ)
  drainCount : ℕ
  finWaitCount : ℕ
deriving Repr, DecidableEq

/-- TCPSocket.close.  An unconnected socket just closes the UDP socket.
Otherwise: bounded drain wait; a FIN goes out unless fin_sent already holds;
bounded wait for fin_received and fin_acked; if the concurrent receiver has
recorded a FIN (oracle finRFinal, the value of fin_received at the final
check) and we have not acked it, the final ACK goes out and fin_acked is
set; finally running is cleared, the receiver thread is joined with a 0.1 s
bound, connected is cleared and the UDP socket is closed. -/
def close_conn (st : ConnState) (drainPoll finR : ℕ → Bool)
    (finRFinal : Bool) : CloseResult :=
  if st.connected = false then
    { final := { st with socketClosed := true }, sent := []
      drainCount := 0, finWaitCount := 0 }
  else
    let d := drainIters drainPoll
    let p1 : ConnState × List (List ℕ) :=
      if st.finSent = false then
        ({ st with finSent := true },
         [pack_segment st.localPort st.remotePort "FIN" st.seq st.ack
            st.recvWindow []])
      else (st, [])
    let f := finWaitIters finR p1.1.finAcked
    let p2 : ConnState × List (List ℕ) :=
      if finRFinal = true ∧ p1.1.finAcked = false then
        ({ p1.1 with finAcked := true },
         p1.2 ++
           [pack_segment p1.1.localPort p1.1.remotePort "ACK" (p1.1.seq + 1)
              p1.1.ack p1.1.recvWindow []])
      else p1
    { final := { p2.1 with running := false, connected := false
                           socketClosed := true }
      sent := p2.2, drainCount := d, finWaitCount := f }

/-- The cross-thread well-formedness the dictionary send_buffer always has
when built by send: strictly later entries start at or after the end of
earlier ones (contiguous byte ranges, the data-model invariant of the
spec). -/
def bufWF (buf : List SendEntry) : Prop :=
  buf.Pairwise (fun a b => a.seqBase + a.data.length ≤ b.seqBase)

instance (buf : List SendEntry) : Decidable (bufWF buf) := by
  unfold bufWF; infer_instance

/-! ## Concrete fixtures used to instantiate the theorems -/

/-- A connected socket: local port 1, initial sequence number 5, the default
4096 receive window. -/
def exState : ConnState :=
  { initState 1 5 4096 with connected := true, running := true }

/-- A one-byte in-order PSH datagram for exState (its ack is 0). -/
def exDatagram : List ℕ := pack_segment 9 1 "PSH" 0 0 4096 [97]

/-- The decoded form of exDatagram. -/
def exHeader : SegmentHeader :=
  { srcPort := 9, dstPort := 1, seq := 0, ack := 0, flags := "PSH"
    window := 4096, data := [97] }

/-- exState after consuming exDatagram. -/
def exResult : ConnState := { exState with recvBuffer := [97], ack := 1 }

/-- The acknowledgment exState sends back for exDatagram. -/
def exReply : List ℕ := pack_segment 1 0 "ACK" 5 1 4096 []

/-- A two-entry contiguous send buffer: one byte at offset 0 and one byte at
offset 1, both sent at time 0. -/
def exBuf : List SendEntry :=
  [{ seqBase := 0, segment := [], time := 0, data := [97] },
   { seqBase := 1, segment := [], time := 0, data := [98] }]

/-- First in-flight one-byte entry of the flow-control counterexample run
(local window 1). -/
def cexEntry0 : SendEntry :=
  { seqBase := 0, segment := pack_segment 0 0 "PSH" 0 0 1 [97], time := 0
    data := [97] }

/-- Second in-flight one-byte entry of the flow-control counterexample
run. -/
def cexEntry1 : SendEntry :=
  { seqBase := 1, segment := pack_segment 0 0 "PSH" 1 0 1 [97], time := 0
    data := [97] }

/-- Sender state after the first chunk of the counterexample run. -/
def cexSender1 : SenderState :=
  { seq := 1, sendBuffer := [cexEntry0], lastAdvertised := 1 }

/-- Sender state after the second chunk of the counterexample run: two
unacknowledged bytes while the peer only ever advertised window 1. -/
def cexSender2 : SenderState :=
  { seq := 2, sendBuffer := [cexEntry0, cexEntry1], lastAdvertised := 1 }

/-! ## Helper lemmas -/

theorem foldl_min_eq_self (l : List ℕ) : ∀ a : ℕ, (∀ b ∈ l, a ≤ b) →
    l.foldl min a = a := by
  induction l with
  | nil => intro a _; rfl
  | cons b l ih =>
    intro a h
    have hab : min a b = a := min_eq_left (h b (by simp))
    simp only [List.foldl_cons, hab]
    exact ih a (fun c hc => h c (by simp [hc]))

theorem min?_cons_of_le (a : ℕ) (l : List ℕ) (h : ∀ b ∈ l, a ≤ b) :
    (a :: l).min? = some a := by
  simp only [List.min?, Option.some.injEq]
  exact foldl_min_eq_self l a h

theorem update_rtt_pos_seed (s : RTTState) (r : ℚ) (hr : 0 < r)
    (hs : s.estimatedRTT = 3/10) :
    update_rtt s r =
      { estimatedRTT := r, devRTT := r / 2
        timeoutInterval := max (1/10) (min (r + 4 * (r / 2)) 3) } := by
  simp [update_rtt, not_le.mpr hr, hs]

theorem update_rtt_pos_ewma (s : RTTState) (r : ℚ) (hr : 0 < r)
    (hs : s.estimatedRTT ≠ 3/10) :
    update_rtt s r =
      { estimatedRTT := (1 - 1/8) * s.estimatedRTT + (1/8) * r
        devRTT := (1 - 1/4) * s.devRTT +
          (1/4) * |r - ((1 - 1/8) * s.estimatedRTT + (1/8) * r)|
        timeoutInterval := max (1/10)
          (min ((1 - 1/8) * s.estimatedRTT + (1/8) * r +
            4 * ((1 - 1/4) * s.devRTT +
              (1/4) * |r - ((1 - 1/8) * s.estimatedRTT + (1/8) * r)|)) 3) } := by
  simp [update_rtt, not_le.mpr hr, hs]

theorem testBit_mod32 (f i : ℕ) : (f % 32).testBit i = (decide (i < 5) && f.testBit i) := by
  have h32 : (32 : ℕ) = 2 ^ 5 := by norm_num
  rw [h32, Nat.testBit_mod_two_pow]

theorem land_mod32 (f m : ℕ) (hm : m < 32) : f &&& m = f % 32 &&& m := by
  apply Nat.eq_of_testBit_eq
  intro i
  simp only [Nat.testBit_and, testBit_mod32]
  rcases Nat.lt_or_ge i 5 with h | h
  · simp [h]
  · have hp : m < 2 ^ i := lt_of_lt_of_le hm (by
      calc (32 : ℕ) = 2 ^ 5 := by norm_num
        _ ≤ 2 ^ i := Nat.pow_le_pow_right (by norm_num) h)
    simp [Nat.testBit_lt_two_pow hp]

theorem decodeFlags_mod32 (f : ℕ) : decodeFlags f = decodeFlags (f % 32) := by
  unfold decodeFlags
  rw [land_mod32 f 18 (by norm_num), land_mod32 f 2 (by norm_num),
    land_mod32 f 16 (by norm_num), land_mod32 f 1 (by norm_num),
    land_mod32 f 8 (by norm_num)]

theorem decodeFlags_priority_small :
    ∀ r : Fin 32,
      ((r : ℕ).testBit 1 = true → (r : ℕ).testBit 4 = true →
        decodeFlags (r : ℕ) = "SYN-ACK") ∧
      ((r : ℕ).testBit 1 = true → (r : ℕ).testBit 4 = false →
        decodeFlags (r : ℕ) = "SYN") ∧
      ((r : ℕ).testBit 1 = false → (r : ℕ).testBit 4 = true →
        decodeFlags (r : ℕ) = "ACK") ∧
      ((r : ℕ).testBit 1 = false → (r : ℕ).testBit 4 = false →
        (r : ℕ).testBit 0 = true → decodeFlags (r : ℕ) = "FIN") ∧
      ((r : ℕ).testBit 1 = false → (r : ℕ).testBit 4 = false →
        (r : ℕ).testBit 0 = false → (r : ℕ).testBit 3 = true →
        decodeFlags (r : ℕ) = "PSH") := by
  decide

theorem readU16_round (n : ℕ) (h : n < 65536) :
    readU16 (n / 256 % 256) (n % 256) = n := by
  unfold readU16; omega

theorem readU32_round (n : ℕ) (h : n < 4294967296) :
    readU32 (n / 16777216 % 256) (n / 65536 % 256) (n / 256 % 256)
      (n % 256) = n := by
  unfold readU32; omega

theorem unpack_pack_raw (sp dp sq ak of w : ℕ) (payload : List ℕ)
    (hsp : sp < 65536) (hdp : dp < 65536) (hsq : sq < 4294967296)
    (hak : ak < 4294967296) (hof : of < 65536) (hw : w < 65536) :
    (packU16 sp ++ packU16 dp ++ packU32 sq ++ packU32 ak ++ packU16 of ++
      packU16 w ++ packU16 0 ++ packU16 0 ++ payload).length =
        20 + payload.length ∧
    (packU16 sp ++ packU16 dp ++ packU32 sq ++ packU32 ak ++ packU16 of ++
      packU16 w ++ packU16 0 ++ packU16 0 ++ payload).drop 20 = payload ∧
    unpack_segment (packU16 sp ++ packU16 dp ++ packU32 sq ++ packU32 ak ++
      packU16 of ++ packU16 w ++ packU16 0 ++ packU16 0 ++ payload) =
      Except.ok { srcPort := sp, dstPort := dp, seq := sq, ack := ak,
                  flags := decodeFlags of, window := w, data := payload } := by
  have hlen : ¬ ((packU16 sp ++ packU16 dp ++ packU32 sq ++ packU32 ak ++
      packU16 of ++ packU16 w ++ packU16 0 ++ packU16 0 ++
        payload).length < 20) := by
    simp [packU16, packU32]
  refine ⟨?_, ?_, ?_⟩
  · simp [packU16, packU32]
    omega
  · simp [packU16, packU32]
  · simp only [unpack_segment, hlen, if_false, ite_false, if_neg hlen]
    simp only [packU16, packU32, List.cons_append, List.nil_append,
      List.getD_cons_zero, List.getD_cons_succ]
    rw [readU16_round sp hsp, readU16_round dp hdp, readU32_round sq hsq,
      readU32_round ak hak, readU16_round of hof, readU16_round w hw]
    simp

theorem handle_ack_fst (buf : List SendEntry) (ackNum : ℕ) (now : ℚ) :
    (handle_ack buf ackNum now).1 =
      buf.filter (fun e => decide (ackNum < endOffset e)) := rfl

theorem sendStep_inv (w : ℕ) (s1 s2 : SenderState) (hstep : SendStep w s1 s2)
    (h1 : s1.sendBuffer.length ≤ 8 ∧ ∀ e ∈ s1.sendBuffer, e.data.length ≤ w) :
    s2.sendBuffer.length ≤ 8 ∧ ∀ e ∈ s2.sendBuffer, e.data.length ≤ w := by
  cases hstep with
  | chunk c t lp rp a hne hlen hwait =>
    constructor
    · simp only [List.length_append, List.length_cons, List.length_nil]
      have h8 : s1.sendBuffer.length < 8 := by
        apply Nat.lt_of_mul_lt_mul_right (a := w)
        calc s1.sendBuffer.length * w < w * 8 := hwait
          _ = 8 * w := Nat.mul_comm w 8
      omega
    · intro e he
      rcases List.mem_append.mp he with hin | hin
      · exact h1.2 e hin
      · have he2 : e = { seqBase := s1.seq
                         segment := pack_segment lp rp "PSH" s1.seq a w c
                         time := t, data := c } := by simpa using hin
        rw [he2]
        exact hlen
  | ackArrive ackNum adv now =>
    constructor
    · simp only [handle_ack_fst]
      exact le_trans (List.length_filter_le _ _) h1.1
    · intro e he
      simp only [handle_ack_fst] at he
      exact h1.2 e (List.mem_filter.mp he).1

theorem sendReachable_inv (w isn w0 : ℕ) (s : SenderState)
    (h : SendReachable w (senderInit isn w0) s) :
    s.sendBuffer.length ≤ 8 ∧ ∀ e ∈ s.sendBuffer, e.data.length ≤ w := by
  induction h with
  | refl => simp [senderInit]
  | tail hr hstep ih => exact sendStep_inv w _ _ hstep ih

theorem findExit_le (cond : ℕ → Bool) (n : ℕ) (hn : cond n = true) :
    ∀ fuel k, k ≤ n → n < k + fuel →
      findExit cond k fuel ≤ n ∧ cond (findExit cond k fuel) = true := by
  intro fuel
  induction fuel with
  | zero =>
    intro k hk hlt
    omega
  | succ fuel ih =>
    intro k hk hlt
    rw [findExit]
    by_cases h : cond k = true
    · rw [if_pos h]
      exact ⟨hk, h⟩
    · rw [if_neg h]
      have hkn : k ≠ n := by
        intro hke
        rw [hke] at h
        exact h hn
      exact ih (k + 1) (by omega) (by omega)

theorem drainIters_le (drainPoll : ℕ → Bool) :
    drainIters drainPoll ≤ 750 ∧
    drainExitCond drainPoll (drainIters drainPoll) = true := by
  have h750 : drainExitCond drainPoll 750 = true := by
    unfold drainExitCond
    have hq : ¬ (((750 : ℕ) : ℚ) * (2 / 100) < 15) := by norm_num
    rw [decide_eq_false hq, Bool.and_false, Bool.not_false]
  exact findExit_le _ 750 h750 751 0 (by omega) (by omega)

theorem finWaitIters_le (finR : ℕ → Bool) (finA : Bool) :
    finWaitIters finR finA ≤ 40 ∧
    finWaitExitCond finR finA (finWaitIters finR finA) = true := by
  have h40 : finWaitExitCond finR finA 40 = true := by
    unfold finWaitExitCond
    have hq : ¬ (((40 : ℕ) : ℚ) * (5 / 100) < 2) := by norm_num
    rw [decide_eq_false hq, Bool.not_false, Bool.true_or]
  exact findExit_le _ 40 h40 41 0 (by omega) (by omega)

/-! ## Claim theorems -/

/-- C4: for every 16-bit offset+flags field, decode assigns the flag label
by the priority order SYN-ACK over SYN over ACK over FIN over PSH on the
masks FIN bit 0, SYN bit 1, PSH bit 3, ACK bit 4; in particular a segment
carrying both PSH (0x08) and ACK (0x10), with or without the header-length
nibble 5 in the upper bits, decodes as ACK and loses its PSH meaning. -/
theorem flag_decoding_priority (f : ℕ) (_hf : f < 2 ^ 16) :
    (f.testBit 1 = true → f.testBit 4 = true → decodeFlags f = "SYN-ACK") ∧
    (f.testBit 1 = true → f.testBit 4 = false → decodeFlags f = "SYN") ∧
    (f.testBit 1 = false → f.testBit 4 = true → decodeFlags f = "ACK") ∧
    (f.testBit 1 = false → f.testBit 4 = false → f.testBit 0 = true →
      decodeFlags f = "FIN") ∧
    (f.testBit 1 = false → f.testBit 4 = false → f.testBit 0 = false →
      f.testBit 3 = true → decodeFlags f = "PSH") ∧
    decodeFlags (0x08 ||| 0x10) = "ACK" ∧
    decodeFlags ((5 <<< 12) ||| (0x08 ||| 0x10)) = "ACK" := by
  have hr : f % 32 < 32 := Nat.mod_lt _ (by norm_num)
  have key := decodeFlags_priority_small ⟨f % 32, hr⟩
  simp only [Fin.val_mk] at key
  have hb : ∀ i : ℕ, i < 5 → (f % 32).testBit i = f.testBit i := by
    intro i hi
    rw [testBit_mod32]
    simp [hi]
  have h32 := decodeFlags_mod32 f
  refine ⟨?_, ?_, ?_, ?_, ?_, by decide, by decide⟩
  · intro h1 h4
    rw [h32]
    exact key.1 (by rw [hb 1 (by norm_num)]; exact h1)
      (by rw [hb 4 (by norm_num)]; exact h4)
  · intro h1 h4
    rw [h32]
    exact key.2.1 (by rw [hb 1 (by norm_num)]; exact h1)
      (by rw [hb 4 (by norm_num)]; exact h4)
  · intro h1 h4
    rw [h32]
    exact key.2.2.1 (by rw [hb 1 (by norm_num)]; exact h1)
      (by rw [hb 4 (by norm_num)]; exact h4)
  · intro h1 h4 h0
    rw [h32]
    exact key.2.2.2.1 (by rw [hb 1 (by norm_num)]; exact h1)
      (by rw [hb 4 (by norm_num)]; exact h4)
      (by rw [hb 0 (by norm_num)]; exact h0)
  · intro h1 h4 h0 h3
    rw [h32]
    exact key.2.2.2.2 (by rw [hb 1 (by norm_num)]; exact h1)
      (by rw [hb 4 (by norm_num)]; exact h4)
      (by rw [hb 0 (by norm_num)]; exact h0)
      (by rw [hb 3 (by norm_num)]; exact h3)

/-- C4 witness: the theorem applied to the concrete PSH+ACK bit pattern
0x18, which is below 2^16. -/
theorem flag_decoding_priority_witness :
    decodeFlags 24 = "ACK" :=
  (flag_decoding_priority 24 (by norm_num)).2.2.1 (by decide) (by decide)

/-- C8: send on a socket whose connection is not established raises the
NotConnected error at once, before any segment is built, transmitted or
buffered and before seq moves: the outcome carries no state change and no
datagram. -/
theorem send_before_connect_fails (st : ConnState) (t : ℚ) (data : List ℕ)
    (h : st.connected = false) :
    send_data st t data = SendOutcome.notConnected := by
  simp [send_data, h]

/-- C8 witness: the theorem at the freshly initialized, never connected
socket. -/
theorem send_before_connect_fails_witness :
    send_data (initState 1 5 4096) 0 [97, 98] = SendOutcome.notConnected :=
  send_before_connect_fails (initState 1 5 4096) 0 [97, 98] rfl

/-- C3 counterexample: on a 0-byte datagram the receiver-loop body does not
drop the segment and keep going (which would be the ok result with the
state unchanged and no reply); the decode error of _unpack_segment is
raised outside the try block around recvfrom, so it escapes and the
receiver thread dies. -/
theorem malformed_segment_claim_cex :
    receive_step (initState 1 5 4096) 0 [] = Except.error "MalformedSegment" ∧
    receive_step (initState 1 5 4096) 0 [] ≠
      Except.ok (initState 1 5 4096, []) := by
  constructor
  · rfl
  · intro h
    simp [receive_step, unpack_segment] at h

/-- C3 amended: for every datagram of fewer than 20 bytes, decoding fails
with the MalformedSegment error, no reply is sent and the connection state
is untouched, but the error propagates out of the receiver loop and
terminates it (the loop does not continue with later datagrams), because
_unpack_segment runs outside the try block of _receive_loop. -/
theorem malformed_segment_error (st : ConnState) (now : ℚ) (d : List ℕ)
    (hd : d.length < 20) :
    unpack_segment d = Except.error "MalformedSegment" ∧
    receive_step st now d = Except.error "MalformedSegment" := by
  have hu : unpack_segment d = Except.error "MalformedSegment" := by
    simp [unpack_segment, hd]
  exact ⟨hu, by simp [receive_step, hu]⟩

/-- C3 witness: the amended theorem at a connected socket fed an empty
datagram. -/
theorem malformed_segment_error_witness :
    unpack_segment [] = Except.error "MalformedSegment" ∧
    receive_step { initState 1 5 4096 with connected := true, running := true }
      0 [] = Except.error "MalformedSegment" :=
  malformed_segment_error
    { initState 1 5 4096 with connected := true, running := true } 0 []
    (by simp)

/-- C7: a PSH segment appends its payload to recvBuffer and advances ack by
the payload length exactly when its sequence number equals the current ack;
a duplicate or out-of-order PSH leaves the whole state unchanged; in every
case exactly one reply goes out, an ACK segment carrying the possibly
updated ack and the locally advertised receive window. -/
theorem psh_in_order_receipt (st : ConnState) (now : ℚ) (d : List ℕ)
    (h : SegmentHeader) (st1 : ConnState) (out : List (List ℕ))
    (hdec : unpack_segment d = Except.ok h) (hflag : h.flags = "PSH")
    (hstep : receive_step st now d = Except.ok (st1, out)) :
    (h.seq = st.ack →
      st1 = { st with recvBuffer := st.recvBuffer ++ h.data
                      ack := st.ack + h.data.length }) ∧
    (h.seq ≠ st.ack → st1 = st) ∧
    out = [pack_segment st.localPort st.remotePort "ACK" st.seq st1.ack
      st.recvWindow []] := by
  by_cases hseq : h.seq = st.ack
  · have hcomp : receive_step st now d = Except.ok
        ({ st with recvBuffer := st.recvBuffer ++ h.data
                   ack := st.ack + h.data.length },
         [pack_segment st.localPort st.remotePort "ACK" st.seq
            (st.ack + h.data.length) st.recvWindow []]) := by
      rw [receive_step, hdec]
      simp [hflag, hseq]
    rw [hcomp] at hstep
    simp only [Except.ok.injEq, Prod.mk.injEq] at hstep
    obtain ⟨hA, hB⟩ := hstep
    refine ⟨fun _ => hA.symm, fun hc => absurd hseq hc, ?_⟩
    rw [← hA]
    exact hB.symm
  · have hcomp : receive_step st now d = Except.ok
        (st, [pack_segment st.localPort st.remotePort "ACK" st.seq
          st.ack st.recvWindow []]) := by
      rw [receive_step, hdec]
      simp [hflag, hseq]
    rw [hcomp] at hstep
    simp only [Except.ok.injEq, Prod.mk.injEq] at hstep
    obtain ⟨hA, hB⟩ := hstep
    refine ⟨fun hc => absurd hc hseq, fun _ => hA.symm, ?_⟩
    rw [← hA]
    exact hB.symm

/-- C7 witness: the theorem at the connected fixture socket and its
in-order one-byte PSH datagram. -/
theorem psh_in_order_receipt_witness :
    (exHeader.seq = exState.ack →
      exResult = { exState with recvBuffer := exState.recvBuffer ++ exHeader.data
                                ack := exState.ack + exHeader.data.length }) ∧
    (exHeader.seq ≠ exState.ack → exResult = exState) ∧
    [exReply] = [pack_segment exState.localPort exState.remotePort "ACK"
      exState.seq exResult.ack exState.recvWindow []] :=
  psh_in_order_receipt exState 0 exDatagram exHeader exResult [exReply]
    rfl rfl rfl

/-- C5: when connect succeeds on a received SYN-ACK and accept succeeds on a
SYN followed by a final ACK whose ack field is the local initial sequence
number + 1, each side ends with ack equal to the peer's initial sequence
number + 1, its own seq advanced by one, connected set and the receiver
loop started. -/
theorem handshake_postcondition (stC stS : ConnState)
    (synack syn finalAck : SegmentHeader)
    (h1 : synack.flags = "SYN-ACK") (h2 : syn.flags = "SYN")
    (h3 : finalAck.flags = "ACK") (h4 : finalAck.ack = stS.seq + 1) :
    ∃ stC2 outC stS2 outS,
      connect_finish stC synack = some (stC2, outC) ∧
      stC2.ack = synack.seq + 1 ∧ stC2.seq = stC.seq + 1 ∧
      stC2.connected = true ∧ stC2.running = true ∧
      accept_conn stS syn finalAck = some (stS2, outS) ∧
      stS2.ack = syn.seq + 1 ∧ stS2.seq = stS.seq + 1 ∧
      stS2.connected = true ∧ stS2.running = true := by
  refine ⟨{ stC with
      ack := synack.seq + 1
      seq := stC.seq + 1
      connected := true
      running := true },
    [pack_segment stC.localPort stC.remotePort "ACK" (stC.seq + 1)
      (synack.seq + 1) stC.recvWindow []],
    { stS with
      ack := syn.seq + 1
      seq := stS.seq + 1
      connected := true
      running := true },
    [pack_segment stS.localPort stS.remotePort "SYN-ACK" stS.seq
      (syn.seq + 1) stS.recvWindow []],
    ?_, rfl, rfl, rfl, rfl, ?_, rfl, rfl, rfl, rfl⟩
  · simp [connect_finish, h1]
  · simp [accept_conn, h2, h3, h4]

/-- C5 witness: the theorem at a concrete client with isn 10 and server with
isn 50, exchanging SYN(seq 10), SYN-ACK(seq 50), ACK(ack 51). -/
theorem handshake_postcondition_witness :
    ∃ stC2 outC stS2 outS,
      connect_finish (initState 1 10 4096)
          { srcPort := 2, dstPort := 1, seq := 50, ack := 11,
            flags := "SYN-ACK", window := 4096, data := [] } =
        some (stC2, outC) ∧
      stC2.ack = 50 + 1 ∧ stC2.seq = (initState 1 10 4096).seq + 1 ∧
      stC2.connected = true ∧ stC2.running = true ∧
      accept_conn (initState 2 50 4096)
          { srcPort := 1, dstPort := 2, seq := 10, ack := 0,
            flags := "SYN", window := 4096, data := [] }
          { srcPort := 1, dstPort := 2, seq := 11, ack := 51,
            flags := "ACK", window := 4096, data := [] } =
        some (stS2, outS) ∧
      stS2.ack = 10 + 1 ∧ stS2.seq = (initState 2 50 4096).seq + 1 ∧
      stS2.connected = true ∧ stS2.running = true :=
  handshake_postcondition (initState 1 10 4096) (initState 2 50 4096)
    { srcPort := 2, dstPort := 1, seq := 50, ack := 11, flags := "SYN-ACK",
      window := 4096, data := [] }
    { srcPort := 1, dstPort := 2, seq := 10, ack := 0, flags := "SYN",
      window := 4096, data := [] }
    { srcPort := 1, dstPort := 2, seq := 11, ack := 51, flags := "ACK",
      window := 4096, data := [] } rfl rfl rfl rfl

/-- C2: on a well-formed (contiguous, as send builds it) buffer, processing
ACK(ack_num) keeps exactly the entries whose end offset exceeds ack_num and
removes exactly those whose end offset is at most ack_num; when anything is
removed the oldest removed entry is the head of the buffer and its age, now
minus its send time, becomes the RTT sample; when nothing qualifies no
sample is taken. -/
theorem cumulative_ack_pruning (buf : List SendEntry) (ackNum : ℕ) (now : ℚ)
    (hwf : bufWF buf) :
    (∀ e, e ∈ (handle_ack buf ackNum now).1 ↔
      e ∈ buf ∧ ackNum < endOffset e) ∧
    (buf = [] → (handle_ack buf ackNum now).2 = none) ∧
    (∀ e0 rest, buf = e0 :: rest →
      (endOffset e0 ≤ ackNum →
        (handle_ack buf ackNum now).2 = some (now - e0.time)) ∧
      (ackNum < endOffset e0 → (handle_ack buf ackNum now).2 = none)) := by
  refine ⟨?_, ?_, ?_⟩
  · intro e
    simp [handle_ack, List.mem_filter]
  · intro h
    subst h
    simp [handle_ack]
  · intro e0 rest hbuf
    subst hbuf
    obtain ⟨hhead, _⟩ := List.pairwise_cons.mp hwf
    have hmin : oldestSeq (e0 :: rest) = some e0.seqBase := by
      unfold oldestSeq
      simp only [List.map_cons]
      apply min?_cons_of_le
      intro b hb
      obtain ⟨e, he, rfl⟩ := List.mem_map.mp hb
      exact le_trans (Nat.le_add_right _ _) (hhead e he)
    constructor
    · intro hc
      have hc2 : e0.seqBase + e0.data.length ≤ ackNum := hc
      simp only [handle_ack, hmin]
      rw [List.find?_cons_of_pos _ (by simp [endOffset, hc2])]
    · intro hc
      simp only [handle_ack, hmin]
      have hnone : (e0 :: rest).find? (fun e =>
          decide (endOffset e ≤ ackNum) &&
          decide (some e.seqBase = some e0.seqBase)) = none := by
        rw [List.find?_eq_none]
        intro x hx
        have hxe : ackNum < endOffset x := by
          rcases List.mem_cons.mp hx with rfl | hx2
          · exact hc
          · exact lt_of_lt_of_le hc
              (le_trans (hhead x hx2) (Nat.le_add_right _ _))
        have hxe2 : ¬ (endOffset x ≤ ackNum) := Nat.not_le.mpr hxe
        simp [hxe2]
      rw [hnone]

/-- C2 witness: the theorem at the two-entry contiguous fixture buffer with
ack number 1, which removes the first byte only and samples its RTT. -/
theorem cumulative_ack_pruning_witness :
    (∀ e, e ∈ (handle_ack exBuf 1 5).1 ↔ e ∈ exBuf ∧ 1 < endOffset e) ∧
    (exBuf = [] → (handle_ack exBuf 1 5).2 = none) ∧
    (∀ e0 rest, exBuf = e0 :: rest →
      (endOffset e0 ≤ 1 → (handle_ack exBuf 1 5).2 = some (5 - e0.time)) ∧
      (1 < endOffset e0 → (handle_ack exBuf 1 5).2 = none)) :=
  cumulative_ack_pruning exBuf 1 5 (by
    unfold bufWF exBuf
    decide)

/-- C6 counterexample: the claim's EWMA rule for every subsequent sample
fails on the sample sequence 0.3, 0.5: the code detects the first sample by
the sentinel estimated_rtt == 0.3, so after a first sample of exactly 0.3
the second sample re-seeds the estimator (estimatedRTT becomes 0.5) instead
of moving to the EWMA value 0.875 * 0.3 + 0.125 * 0.5 = 0.3375. -/
theorem rtt_estimator_claim_cex :
    (update_rtt (update_rtt rttInit (3/10)) (1/2)).estimatedRTT = 1/2 ∧
    (update_rtt (update_rtt rttInit (3/10)) (1/2)).estimatedRTT ≠
      (1 - 1/8) * (update_rtt rttInit (3/10)).estimatedRTT +
        (1/8) * (1/2) := by
  constructor <;> norm_num [update_rtt, rttInit]

/-- C6 amended: a positive sample arriving while estimatedRTT equals the
sentinel initial value 0.3 (in particular the true first sample) seeds
estimatedRTT to the sample and devRTT to half of it; a positive sample
arriving while estimatedRTT differs from 0.3 performs the EWMA update with
alpha = 0.125 and beta = 0.25 (deviation against the updated estimate) and
re-clamps timeoutInterval to [0.1, 3]; feeding a constant positive sample c
different from 0.3 pins estimatedRTT at c while devRTT equals
(3/4)^n * (c/2) after n further samples, which drops below every positive
bound. -/
theorem rtt_estimator_amended :
    (∀ s : RTTState, ∀ r : ℚ, 0 < r → s.estimatedRTT = 3/10 →
      update_rtt s r =
        { estimatedRTT := r, devRTT := r / 2
          timeoutInterval := max (1/10) (min (r + 4 * (r / 2)) 3) }) ∧
    (∀ s : RTTState, ∀ r : ℚ, 0 < r → s.estimatedRTT ≠ 3/10 →
      update_rtt s r =
        { estimatedRTT := (1 - 1/8) * s.estimatedRTT + (1/8) * r
          devRTT := (1 - 1/4) * s.devRTT +
            (1/4) * |r - ((1 - 1/8) * s.estimatedRTT + (1/8) * r)|
          timeoutInterval := max (1/10)
            (min ((1 - 1/8) * s.estimatedRTT + (1/8) * r +
              4 * ((1 - 1/4) * s.devRTT +
                (1/4) * |r - ((1 - 1/8) * s.estimatedRTT + (1/8) * r)|)) 3) }) ∧
    (∀ c : ℚ, 0 < c → c ≠ 3/10 →
      (∀ n, (rttIterate (update_rtt rttInit c) c n).estimatedRTT = c ∧
        (rttIterate (update_rtt rttInit c) c n).devRTT =
          (3/4) ^ n * (c / 2)) ∧
      (∀ ε : ℚ, 0 < ε → ∃ n,
        (rttIterate (update_rtt rttInit c) c n).devRTT < ε)) := by
  have hseed : ∀ r : ℚ, 0 < r → update_rtt rttInit r =
      { estimatedRTT := r, devRTT := r / 2
        timeoutInterval := max (1/10) (min (r + 4 * (r / 2)) 3) } :=
    fun r hr => update_rtt_pos_seed rttInit r hr rfl
  refine ⟨?_, ?_, ?_⟩
  · intro s r hr hs
    exact update_rtt_pos_seed s r hr hs
  · intro s r hr hs
    exact update_rtt_pos_ewma s r hr hs
  · intro c hc hne
    have hmain : ∀ n, (rttIterate (update_rtt rttInit c) c n).estimatedRTT = c ∧
        (rttIterate (update_rtt rttInit c) c n).devRTT = (3/4) ^ n * (c / 2) := by
      intro n
      induction n with
      | zero =>
        rw [rttIterate, hseed c hc]
        norm_num
      | succ n ih =>
        obtain ⟨ih1, ih2⟩ := ih
        have hestc : (1 - (1/8 : ℚ)) * c + (1/8) * c = c := by ring
        have hcond : (rttIterate (update_rtt rttInit c) c n).estimatedRTT ≠
            3/10 := by rw [ih1]; exact hne
        have hewma :=
          update_rtt_pos_ewma (rttIterate (update_rtt rttInit c) c n) c hc hcond
        show (update_rtt (rttIterate (update_rtt rttInit c) c n) c).estimatedRTT
            = c ∧
          (update_rtt (rttIterate (update_rtt rttInit c) c n) c).devRTT =
            (3/4) ^ (n + 1) * (c / 2)
        rw [hewma]
        constructor
        · show (1 - 1/8) * (rttIterate (update_rtt rttInit c) c n).estimatedRTT
              + (1/8) * c = c
          rw [ih1]
          ring
        · show (1 - 1/4) * (rttIterate (update_rtt rttInit c) c n).devRTT
              + (1/4) * |c - ((1 - 1/8) *
                (rttIterate (update_rtt rttInit c) c n).estimatedRTT +
                (1/8) * c)| = (3/4) ^ (n + 1) * (c / 2)
          rw [ih1, ih2, hestc, sub_self, abs_zero]
          ring
    refine ⟨hmain, ?_⟩
    intro ε hε
    have hc2 : (0 : ℚ) < c / 2 := by positivity
    obtain ⟨n, hn⟩ := exists_pow_lt_of_lt_one (x := ε / (c / 2))
      (y := (3/4 : ℚ)) (div_pos hε hc2) (by norm_num)
    refine ⟨n, ?_⟩
    rw [(hmain n).2]
    calc (3/4 : ℚ) ^ n * (c / 2) < ε / (c / 2) * (c / 2) :=
          mul_lt_mul_of_pos_right hn hc2
      _ = ε := div_mul_cancel₀ ε (ne_of_gt hc2)

/-- C6 witness: the amended theorem's EWMA branch at the state (1, 1, 1)
and sample 2. -/
theorem rtt_estimator_amended_witness :
    update_rtt { estimatedRTT := 1, devRTT := 1, timeoutInterval := 1 } 2 =
      { estimatedRTT := (1 - 1/8) * 1 + (1/8) * 2
        devRTT := (1 - 1/4) * 1 + (1/4) * |2 - ((1 - 1/8) * 1 + (1/8) * 2)|
        timeoutInterval := max (1/10)
          (min ((1 - 1/8) * 1 + (1/8) * 2 +
            4 * ((1 - 1/4) * 1 + (1/4) * |2 - ((1 - 1/8) * 1 + (1/8) * 2)|)) 3) } :=
  rtt_estimator_amended.2.1
    { estimatedRTT := 1, devRTT := 1, timeoutInterval := 1 } 2
    (by norm_num) (by norm_num)

/-- C10: for every flag label among SYN, ACK, PSH, FIN, SYN-ACK, every seq
and ack below 2^32, every window below 2^16 (and in-range ports), the
encoded segment is exactly 20 header bytes followed by the payload, and
decoding recovers the same label, seq, ack, window and payload (and the
ports). -/
theorem encode_decode_roundtrip (label : String)
    (hl : label = "SYN" ∨ label = "ACK" ∨ label = "PSH" ∨ label = "FIN" ∨
      label = "SYN-ACK")
    (sp dp sq ak w : ℕ) (hsp : sp < 2 ^ 16) (hdp : dp < 2 ^ 16)
    (hsq : sq < 2 ^ 32) (hak : ak < 2 ^ 32) (hw : w < 2 ^ 16)
    (payload : List ℕ) :
    (pack_segment sp dp label sq ak w payload).length = 20 + payload.length ∧
    (pack_segment sp dp label sq ak w payload).drop 20 = payload ∧
    unpack_segment (pack_segment sp dp label sq ak w payload) =
      Except.ok { srcPort := sp, dstPort := dp, seq := sq, ack := ak,
                  flags := label, window := w, data := payload } := by
  have hsp2 : sp < 65536 := by norm_num at hsp; exact hsp
  have hdp2 : dp < 65536 := by norm_num at hdp; exact hdp
  have hsq2 : sq < 4294967296 := by norm_num at hsq; exact hsq
  have hak2 : ak < 4294967296 := by norm_num at hak; exact hak
  have hw2 : w < 65536 := by norm_num at hw; exact hw
  rcases hl with rfl | rfl | rfl | rfl | rfl
  · obtain ⟨h1, h2, h3⟩ := unpack_pack_raw sp dp sq ak
      ((5 <<< 12) ||| flagBits "SYN") w payload hsp2 hdp2 hsq2 hak2
      (by decide) hw2
    have hd : decodeFlags ((5 <<< 12) ||| flagBits "SYN") = "SYN" := by decide
    exact ⟨h1, h2, hd ▸ h3⟩
  · obtain ⟨h1, h2, h3⟩ := unpack_pack_raw sp dp sq ak
      ((5 <<< 12) ||| flagBits "ACK") w payload hsp2 hdp2 hsq2 hak2
      (by decide) hw2
    have hd : decodeFlags ((5 <<< 12) ||| flagBits "ACK") = "ACK" := by decide
    exact ⟨h1, h2, hd ▸ h3⟩
  · obtain ⟨h1, h2, h3⟩ := unpack_pack_raw sp dp sq ak
      ((5 <<< 12) ||| flagBits "PSH") w payload hsp2 hdp2 hsq2 hak2
      (by decide) hw2
    have hd : decodeFlags ((5 <<< 12) ||| flagBits "PSH") = "PSH" := by decide
    exact ⟨h1, h2, hd ▸ h3⟩
  · obtain ⟨h1, h2, h3⟩ := unpack_pack_raw sp dp sq ak
      ((5 <<< 12) ||| flagBits "FIN") w payload hsp2 hdp2 hsq2 hak2
      (by decide) hw2
    have hd : decodeFlags ((5 <<< 12) ||| flagBits "FIN") = "FIN" := by decide
    exact ⟨h1, h2, hd ▸ h3⟩
  · obtain ⟨h1, h2, h3⟩ := unpack_pack_raw sp dp sq ak
      ((5 <<< 12) ||| flagBits "SYN-ACK") w payload hsp2 hdp2 hsq2 hak2
      (by decide) hw2
    have hd : decodeFlags ((5 <<< 12) ||| flagBits "SYN-ACK") = "SYN-ACK" := by
      decide
    exact ⟨h1, h2, hd ▸ h3⟩

/-- C10 witness: the theorem at a PSH segment from port 9 to port 1 with
seq 3, ack 4, window 4096 and a two-byte payload. -/
theorem encode_decode_roundtrip_witness :
    (pack_segment 9 1 "PSH" 3 4 4096 [97, 98]).length = 20 + 2 ∧
    (pack_segment 9 1 "PSH" 3 4 4096 [97, 98]).drop 20 = [97, 98] ∧
    unpack_segment (pack_segment 9 1 "PSH" 3 4 4096 [97, 98]) =
      Except.ok { srcPort := 9, dstPort := 1, seq := 3, ack := 4,
                  flags := "PSH", window := 4096, data := [97, 98] } :=
  encode_decode_roundtrip "PSH" (Or.inr (Or.inr (Or.inl rfl))) 9 1 3 4 4096
    (by norm_num) (by norm_num) (by norm_num) (by norm_num) (by norm_num)
    [97, 98]

/-- C1 counterexample: with local receive window 1 and the peer having
advertised window 1 in the handshake, two send-loop iterations with no
intervening ACK are reachable (the wait guard only blocks at
recv_window * 8 worth of buffered chunks), leaving 2 unacknowledged bytes
in flight, which exceeds the most recently advertised window 1. -/
theorem flow_control_claim_cex :
    SendReachable 1 (senderInit 0 1) cexSender2 ∧
    cexSender2.lastAdvertised = 1 ∧ 1 < inflight cexSender2 := by
  refine ⟨?_, rfl, by decide⟩
  have hs1 : SendStep 1 (senderInit 0 1) cexSender1 :=
    SendStep.chunk (senderInit 0 1) [97] 0 0 0 0 (by decide) (by decide)
      (by decide)
  have hs2 : SendStep 1 cexSender1 cexSender2 :=
    SendStep.chunk cexSender1 [97] 0 0 0 0 (by decide) (by decide) (by decide)
  exact SendReachable.tail (SendReachable.tail SendReachable.refl hs1) hs2

/-- C1 amended: the source never reads the peer's advertised window; the
send loop bounds itself against its own fixed recv_window, admitting up to
8 chunks of at most recv_window bytes each, so for every reachable state of
a connected sender the unacknowledged bytes in flight are at most
8 * recvWindow (not the peer's last advertised window). -/
theorem flow_control_bound (w isn w0 : ℕ) (s : SenderState)
    (h : SendReachable w (senderInit isn w0) s) :
    inflight s ≤ 8 * w := by
  obtain ⟨hlen, hbound⟩ := sendReachable_inv w isn w0 s h
  unfold inflight
  have hsum : (s.sendBuffer.map (fun e => e.data.length)).sum ≤
      (s.sendBuffer.map (fun e => e.data.length)).length • w := by
    apply List.sum_le_card_nsmul
    intro x hx
    obtain ⟨e, he, rfl⟩ := List.mem_map.mp hx
    exact hbound e he
  rw [List.length_map, smul_eq_mul] at hsum
  calc (s.sendBuffer.map (fun e => e.data.length)).sum
      ≤ s.sendBuffer.length * w := hsum
    _ ≤ 8 * w := Nat.mul_le_mul_right w hlen

/-- C1 witness: the amended bound at the freshly connected sender with
window 1, which is reachable by zero steps and has nothing in flight. -/
theorem flow_control_bound_witness :
    inflight (senderInit 0 1) ≤ 8 * 1 :=
  flow_control_bound 1 0 1 (senderInit 0 1) SendReachable.refl

/-- C9: on every connection state satisfying the run-time invariant that an
unconnected socket has no receiver loop, and against every behavior of the
concurrent receiver thread (the drain and FIN oracles), close terminates
with each waiting phase bounded: the drain wait polls at most 750 times
(15 s at 0.02 s per poll), the FIN-acknowledgment wait polls at most 40
times (2 s at 0.05 s per poll), and on exit the running flag is cleared,
the connection is marked not connected and the UDP socket is closed. -/
theorem close_bounded (st : ConnState) (drainPoll finR : ℕ → Bool)
    (finRFinal : Bool) (hinv : st.connected = false → st.running = false) :
    (close_conn st drainPoll finR finRFinal).final.running = false ∧
    (close_conn st drainPoll finR finRFinal).final.connected = false ∧
    (close_conn st drainPoll finR finRFinal).final.socketClosed = true ∧
    (close_conn st drainPoll finR finRFinal).drainCount ≤ 750 ∧
    (close_conn st drainPoll finR finRFinal).finWaitCount ≤ 40 := by
  by_cases hc : st.connected = false
  · simp [close_conn, hc, hinv hc]
  · simp only [close_conn, hc, if_false, ite_false]
    refine ⟨rfl, rfl, rfl, ?_, ?_⟩
    · exact (drainIters_le drainPoll).1
    · exact (finWaitIters_le finR _).1

/-- C9 witness: the theorem at the connected fixture socket with a peer
that never drains the buffer and never sends FIN or ACK. -/
theorem close_bounded_witness :
    (close_conn exState (fun _ => true) (fun _ => false) false).final.running
        = false ∧
    (close_conn exState (fun _ => true) (fun _ => false)
        false).final.connected = false ∧
    (close_conn exState (fun _ => true) (fun _ => false)
        false).final.socketClosed = true ∧
    (close_conn exState (fun _ => true) (fun _ => false) false).drainCount
        ≤ 750 ∧
    (close_conn exState (fun _ => true) (fun _ => false) false).finWaitCount
        ≤ 40 :=
  close_bounded exState (fun _ => true) (fun _ => false) false
    (by intro h; simp [exState, initState] at h)

end TCP
